import Mathlib

/-!
Shallow embedding of the Trusty-cogs `translate` cog (src/translate/api.py,
src/translate/models.py, src/translate/translate.py) and proofs about it.

Python dictionaries that the code treats as ordered key/value stores are
modelled as association lists `List (K × V)` with the oldest entry at the
head, matching `collections.OrderedDict` insertion order.
-/

namespace Translate

/-- `d[k]` lookup on an insertion-ordered dict: the first entry whose key
matches.  `OrderedDict.__getitem__` performs no reordering, so lookup is a
pure function of the dict. -/
def alistLookup {K V : Type} [DecidableEq K] (l : List (K × V)) (k : K) : Option V :=
  (l.find? (fun p => decide (p.1 = k))).map (·.2)

/-- `d[k] = v` on an insertion-ordered dict: overwriting an existing key keeps
its position, a new key is appended at the end (CPython dict semantics used by
`OrderedDict.__setitem__`). -/
def alistSet {K V : Type} [DecidableEq K] (l : List (K × V)) (k : K) (v : V) :
    List (K × V) :=
  if l.any (fun p => decide (p.1 = k)) then
    l.map (fun p => if p.1 = k then (k, v) else p)
  else
    l ++ [(k, v)]

/-- `FixedSizeOrderedDict` from src/translate/api.py lines 26-36: an
`OrderedDict` with a `max_len` cap. -/
structure FixedSizeOrderedDict (K V : Type) where
  maxLen : Nat
  entries : List (K × V)
deriving Repr

namespace FixedSizeOrderedDict

/-- `FixedSizeOrderedDict(max_len=n)`: the fresh, empty dict. -/
def empty (K V : Type) (n : Nat) : FixedSizeOrderedDict K V := ⟨n, []⟩

/-- `__setitem__` (api.py lines 32-36): store via `OrderedDict.__setitem__`,
then, when `max_len > 0` and the length exceeds `max_len`,
`popitem(False)` removes the first (oldest) entry. -/
def setItem {K V : Type} [DecidableEq K] (d : FixedSizeOrderedDict K V)
    (k : K) (v : V) : FixedSizeOrderedDict K V :=
  if 0 < d.maxLen ∧ d.maxLen < (alistSet d.entries k v).length then
    ⟨d.maxLen, (alistSet d.entries k v).drop 1⟩
  else
    ⟨d.maxLen, alistSet d.entries k v⟩

/-- Membership test plus read, as in `if key in d: return d[key]`. -/
def get {K V : Type} [DecidableEq K] (d : FixedSizeOrderedDict K V) (k : K) :
    Option V :=
  alistLookup d.entries k

end FixedSizeOrderedDict

section AlistLemmas

variable {K V : Type} [DecidableEq K]

theorem alistSet_length_of_mem (l : List (K × V)) (k : K) (v : V)
    (h : l.any (fun p => decide (p.1 = k)) = true) :
    (alistSet l k v).length = l.length := by
  simp [alistSet, h]

theorem alistSet_length_of_not_mem (l : List (K × V)) (k : K) (v : V)
    (h : l.any (fun p => decide (p.1 = k)) = false) :
    (alistSet l k v).length = l.length + 1 := by
  simp [alistSet, h]

theorem map_replace_keys (l : List (K × V)) (k : K) (v : V) :
    (l.map (fun p => if p.1 = k then (k, v) else p)).map Prod.fst =
      l.map Prod.fst := by
  induction l with
  | nil => rfl
  | cons p t ih =>
      simp only [List.map_cons, ih]
      by_cases hp : p.1 = k
      · simp [hp]
      · simp [hp]

theorem alistSet_keys_of_mem (l : List (K × V)) (k : K) (v : V)
    (h : l.any (fun p => decide (p.1 = k)) = true) :
    (alistSet l k v).map Prod.fst = l.map Prod.fst := by
  rw [alistSet, if_pos h]
  exact map_replace_keys l k v

theorem alistSet_eq_append_of_not_mem (l : List (K × V)) (k : K) (v : V)
    (h : l.any (fun p => decide (p.1 = k)) = false) :
    alistSet l k v = l ++ [(k, v)] := by
  simp [alistSet, h]

theorem find_replace_of_mem (l : List (K × V)) (k : K) (v : V)
    (h : l.any (fun p => decide (p.1 = k)) = true) :
    (l.map (fun p => if p.1 = k then (k, v) else p)).find?
        (fun p => decide (p.1 = k)) = some (k, v) := by
  induction l with
  | nil => simp at h
  | cons p t ih =>
      by_cases hp : p.1 = k
      · simp only [List.map_cons, if_pos hp]
        rw [List.find?_cons_of_pos _ (by simp)]
      · have ht : t.any (fun p => decide (p.1 = k)) = true := by
          simp only [List.any_cons, Bool.or_eq_true, decide_eq_true_eq] at h
          rcases h with h | h
          · exact absurd h hp
          · simpa using h
        simp only [List.map_cons, if_neg hp]
        rw [List.find?_cons_of_neg _ (by simp [hp])]
        exact ih ht

theorem find_append_of_not_mem (l₁ l₂ : List (K × V)) (k : K)
    (h : l₁.any (fun p => decide (p.1 = k)) = false) :
    (l₁ ++ l₂).find? (fun p => decide (p.1 = k)) =
      l₂.find? (fun p => decide (p.1 = k)) := by
  induction l₁ with
  | nil => rfl
  | cons p t ih =>
      simp only [List.any_cons, Bool.or_eq_false_iff] at h
      rw [List.cons_append, List.find?_cons_of_neg _ (by simp [h.1]), ih h.2]

theorem alistLookup_set_self (l : List (K × V)) (k : K) (v : V) :
    alistLookup (alistSet l k v) k = some v := by
  by_cases h : l.any (fun p => decide (p.1 = k)) = true
  · rw [alistLookup, alistSet, if_pos h, find_replace_of_mem l k v h]
    rfl
  · have h' : l.any (fun p => decide (p.1 = k)) = false :=
      Bool.eq_false_iff.mpr h
    rw [alistLookup, alistSet, if_neg h, find_append_of_not_mem l [(k, v)] k h']
    rw [List.find?_cons_of_pos _ (by simp)]
    rfl

end AlistLemmas

section FSODLemmas

variable {K V : Type} [DecidableEq K]

open FixedSizeOrderedDict

theorem setItem_maxLen (d : FixedSizeOrderedDict K V) (k : K) (v : V) :
    (d.setItem k v).maxLen = d.maxLen := by
  rw [setItem]
  by_cases h : 0 < d.maxLen ∧ d.maxLen < (alistSet d.entries k v).length
  · rw [if_pos h]
  · rw [if_neg h]

/-- One `put` keeps the size within the cap. -/
theorem setItem_length_le (d : FixedSizeOrderedDict K V) (k : K) (v : V)
    (hpos : 0 < d.maxLen) (hle : d.entries.length ≤ d.maxLen) :
    (d.setItem k v).entries.length ≤ d.maxLen := by
  have hlen : (alistSet d.entries k v).length ≤ d.entries.length + 1 := by
    by_cases hm : d.entries.any (fun p => decide (p.1 = k)) = true
    · rw [alistSet_length_of_mem d.entries k v hm]
      omega
    · rw [alistSet_length_of_not_mem d.entries k v (Bool.eq_false_iff.mpr hm)]
  rw [setItem]
  by_cases h : 0 < d.maxLen ∧ d.maxLen < (alistSet d.entries k v).length
  · rw [if_pos h]
    simp only [List.length_drop]
    omega
  · rw [if_neg h]
    show (alistSet d.entries k v).length ≤ d.maxLen
    push_neg at h
    exact h hpos

/-- Inserting a brand-new key into a full dict appends it and evicts exactly
the oldest surviving entry (the head). -/
theorem setItem_full_evicts_oldest (d : FixedSizeOrderedDict K V) (k : K) (v : V)
    (hpos : 0 < d.maxLen) (hfull : d.entries.length = d.maxLen)
    (hnew : d.entries.any (fun p => decide (p.1 = k)) = false) :
    (d.setItem k v).entries = d.entries.tail ++ [(k, v)] := by
  rw [setItem, alistSet_eq_append_of_not_mem d.entries k v hnew]
  have hcond : 0 < d.maxLen ∧ d.maxLen < (d.entries ++ [(k, v)]).length := by
    refine ⟨hpos, ?_⟩
    simp [hfull]
  rw [if_pos hcond]
  cases hd : d.entries with
  | nil =>
      rw [hd] at hfull
      simp at hfull
      omega
  | cons p t => simp

/-- Inserting a brand-new key while below capacity appends without eviction. -/
theorem setItem_not_full_appends (d : FixedSizeOrderedDict K V) (k : K) (v : V)
    (hlt : d.entries.length < d.maxLen)
    (hnew : d.entries.any (fun p => decide (p.1 = k)) = false) :
    (d.setItem k v).entries = d.entries ++ [(k, v)] := by
  rw [setItem, alistSet_eq_append_of_not_mem d.entries k v hnew]
  have hcond : ¬(0 < d.maxLen ∧ d.maxLen < (d.entries ++ [(k, v)]).length) := by
    intro h
    simp only [List.length_append, List.length_cons, List.length_nil] at h
    omega
  rw [if_neg hcond]

/-- Re-inserting an existing key neither reorders the keys nor evicts. -/
theorem setItem_mem_keys (d : FixedSizeOrderedDict K V) (k : K) (v : V)
    (hle : d.entries.length ≤ d.maxLen)
    (hmem : d.entries.any (fun p => decide (p.1 = k)) = true) :
    (d.setItem k v).entries.map Prod.fst = d.entries.map Prod.fst := by
  rw [setItem]
  have hlen := alistSet_length_of_mem d.entries k v hmem
  have hcond : ¬(0 < d.maxLen ∧ d.maxLen < (alistSet d.entries k v).length) := by
    intro h
    omega
  rw [if_neg hcond]
  exact alistSet_keys_of_mem d.entries k v hmem

/-- After a `put` within capacity, looking the key up returns the value. -/
theorem get_setItem_self (d : FixedSizeOrderedDict K V) (k : K) (v : V)
    (hpos : 0 < d.maxLen) (hle : d.entries.length ≤ d.maxLen) :
    (d.setItem k v).get k = some v := by
  rw [setItem]
  by_cases hm : d.entries.any (fun p => decide (p.1 = k)) = true
  · have hlen := alistSet_length_of_mem d.entries k v hm
    have hcond : ¬(0 < d.maxLen ∧ d.maxLen < (alistSet d.entries k v).length) := by
      intro h
      omega
    rw [if_neg hcond]
    exact alistLookup_set_self d.entries k v
  · have hm' : d.entries.any (fun p => decide (p.1 = k)) = false :=
      Bool.eq_false_iff.mpr hm
    rw [alistSet_eq_append_of_not_mem d.entries k v hm']
    by_cases hcond : 0 < d.maxLen ∧ d.maxLen < (d.entries ++ [(k, v)]).length
    · rw [if_pos hcond]
      cases hd : d.entries with
      | nil =>
          exfalso
          rcases hcond with ⟨h1, h2⟩
          rw [hd] at h2
          simp at h2
          omega
      | cons p t =>
          have ht : t.any (fun p => decide (p.1 = k)) = false := by
            rw [hd] at hm'
            simp only [List.any_cons, Bool.or_eq_false_iff] at hm'
            exact hm'.2
          show alistLookup ((((p :: t) ++ [(k, v)]).drop 1)) k = some v
          simp only [List.cons_append, List.drop_succ_cons, List.drop_zero]
          rw [alistLookup, find_append_of_not_mem t [(k, v)] k ht]
          rw [List.find?_cons_of_pos _ (by simp)]
          rfl
    · rw [if_neg hcond]
      show alistLookup (d.entries ++ [(k, v)]) k = some v
      rw [alistLookup, find_append_of_not_mem d.entries [(k, v)] k hm']
      rw [List.find?_cons_of_pos _ (by simp)]
      rfl

end FSODLemmas

/-- `DetectedLanguage` from src/translate/models.py lines 20-31.  Python's
`confidence` float only ever gets compared, so it is embedded as a rational. -/
structure DetectedLanguage where
  language : String
  isReliable : Bool
  confidence : ℚ
deriving DecidableEq, Repr

/-- The accumulator loop inside `DetectLanguageResponse.language`
(models.py lines 45-53): walk the detections, replacing the running best
whenever a strictly larger confidence is seen. -/
def pickLanguage : List DetectedLanguage → ℚ → Option DetectedLanguage →
    Option DetectedLanguage
  | [], _, ret => ret
  | l :: ls, conf, ret =>
      if l.confidence > conf then pickLanguage ls l.confidence (some l)
      else pickLanguage ls conf ret

/-- `DetectLanguageResponse` from models.py lines 34-53.  The raw `data` dict
is not needed by any claim and is omitted; `detections` holds the parsed
candidates. -/
structure DetectLanguageResponse where
  detections : List DetectedLanguage
deriving DecidableEq, Repr

/-- `DetectLanguageResponse.language` (models.py lines 45-53): `conf` starts
at `0.0` and `ret` at `None`. -/
def DetectLanguageResponse.language (r : DetectLanguageResponse) :
    Option DetectedLanguage :=
  pickLanguage r.detections 0 none

/-- `Translation` from models.py lines 94-109. -/
structure Translation where
  detected_source_language : Option String
  model : Option String
  translated_text : String
deriving DecidableEq, Repr

/-- `TranslateTextResponse` from models.py lines 56-91 (raw `data` dict
omitted, as above). -/
structure TranslateTextResponse where
  translations : List Translation
deriving DecidableEq, Repr

/-- The characters of the script-variant suffix `"-Latn"`. -/
def latn : List Char := ['-', 'L', 'a', 't', 'n']

/-- Python `s.replace("-Latn", "")` on the underlying characters: scan left to
right, deleting each non-overlapping occurrence and continuing after it. -/
def stripLatnAux : List Char → List Char
  | [] => []
  | c :: cs =>
      if latn.isPrefixOf (c :: cs) then stripLatnAux (cs.drop 4)
      else c :: stripLatnAux cs
termination_by l => l.length
decreasing_by
  · simp only [List.length_cons, List.length_drop]
    omega
  · simp

/-- `s.replace("-Latn", "")` as used in api.py line 133 and models.py
lines 84-85. -/
def stripLatn (s : String) : String := ⟨stripLatnAux s.data⟩

/-- Whether `"-Latn"` occurs as a substring (used to state well-formedness of
a language code). -/
def containsLatn : List Char → Bool
  | [] => false
  | c :: cs => latn.isPrefixOf (c :: cs) || containsLatn cs

/-- `ISO639_MAP.get(code) or code.upper()` from models.py lines 87-88.  The
`lang_codes.py` file is not part of the sources, so the code-to-name map is a
parameter. -/
def resolveLangName (iso : List (String × String)) (code : String) : String :=
  (alistLookup iso code.toLower).getD code.toUpper

/-- The visible pieces of the Discord embed built by
`TranslateTextResponse.embed` (models.py lines 70-91): the reply content
line, the embed description and the footer text. -/
structure EmbedOut where
  content : String
  description : String
  footerText : String
deriving DecidableEq, Repr

/-- `TranslateTextResponse.embed` (models.py lines 70-91): description is the
first translation's text, both language codes are stripped of `"-Latn"` and
resolved through the ISO-639 map (falling back to upper-case), and the footer
shows `from → to`.  Discord member objects are represented by their mention
strings. -/
def TranslateTextResponse.embed (r : TranslateTextResponse)
    (iso : List (String × String)) (authorMention : String)
    (from_language to_language : String) (requestorMention : Option String) :
    EmbedOut :=
  let from_stripped := stripLatn from_language
  let to_stripped := stripLatn to_language
  let from_ln := resolveLangName iso from_stripped
  let to_ln := resolveLangName iso to_stripped
  let detail_string := requestorMention.getD authorMention
  { content := "> Requested by: " ++ detail_string
    description := ((r.translations.head?).map (·.translated_text)).getD ""
    footerText := from_ln ++ "  →  " ++ to_ln }

/-- One `count` dict from the config (`{"characters": 0, "requests": 0,
"detect": 0}` registered in src/translate/translate.py lines 53 and 57).
Both the registered defaults and every dict the cog writes carry exactly
these three keys, so the dict is embedded as a record. -/
structure CountMap where
  characters : Nat
  requests : Nat
  detect : Nat
deriving DecidableEq, Repr

/-- The durable Red config store as seen by the cog: the global `count` blob
and one `count` blob per guild id. -/
structure BotConfig where
  globalCount : CountMap
  guildCount : Nat → CountMap

/-- `StatsCounter` from api.py lines 154-221.  `_global_counter = {}` (the
falsy empty dict) is modelled as `none`; once loaded it is always a full
three-key dict, i.e. `some`. -/
structure StatsCounter where
  guildCounter : List (Nat × CountMap)
  globalCounter : Option CountMap
deriving Repr

namespace StatsCounter

/-- `StatsCounter.__init__` (api.py lines 155-158). -/
def init : StatsCounter := ⟨[], none⟩

/-- `StatsCounter.add_detect` (api.py lines 201-209): lazily load the guild
and global counters from config, then bump `detect`. -/
def add_detect (cfg : BotConfig) (sc : StatsCounter) (guild : Option Nat) :
    StatsCounter :=
  let sc :=
    match guild with
    | none => sc
    | some gid =>
        let base := (alistLookup sc.guildCounter gid).getD (cfg.guildCount gid)
        { sc with
          guildCounter :=
            alistSet sc.guildCounter gid { base with detect := base.detect + 1 } }
  let glob := sc.globalCounter.getD cfg.globalCount
  { sc with globalCounter := some { glob with detect := glob.detect + 1 } }

/-- `StatsCounter.add_requests` (api.py lines 211-221): lazily load, then bump
`requests` by one and `characters` by `len(message)`. -/
def add_requests (cfg : BotConfig) (sc : StatsCounter) (guild : Option Nat)
    (message : String) : StatsCounter :=
  let sc :=
    match guild with
    | none => sc
    | some gid =>
        let base := (alistLookup sc.guildCounter gid).getD (cfg.guildCount gid)
        { sc with
          guildCounter :=
            alistSet sc.guildCounter gid
              { base with
                requests := base.requests + 1
                characters := base.characters + message.length } }
  let glob := sc.globalCounter.getD cfg.globalCount
  { sc with
    globalCounter :=
      some { glob with
             requests := glob.requests + 1
             characters := glob.characters + message.length } }

/-- `StatsCounter.save` (api.py lines 190-199): overwrite each durable `count`
field with the in-memory value, global first, then one guild at a time.  A
scope never touched in memory is not written. -/
def save (cfg : BotConfig) (sc : StatsCounter) : BotConfig :=
  let cfg :=
    match sc.globalCounter with
    | none => cfg
    | some m => { cfg with globalCount := m }
  { cfg with
    guildCount := fun gid =>
      match alistLookup sc.guildCounter gid with
      | some m => m
      | none => cfg.guildCount gid }

end StatsCounter

/-- The API token check `if not self._api_token` (api.py lines 73 and 115):
`None` and the empty string are both falsy. -/
def tokenFalsy : Option String → Bool
  | none => true
  | some s => s.isEmpty

/-- The outcome of one `session.get`: either a response with an HTTP status
and (for status 200) a parsed JSON body, or an exception raised during the
request. -/
inductive HttpResult (β : Type) where
  | response (status : Nat) (body : β)
  | failure
deriving Repr

/-- The parsed JSON body of a detect-language response: `errorMessage` is
`data["error"]["message"]` when the payload embeds an error object, and
`detections` the parsed `data["data"]["detections"]` candidates. -/
structure DetectBody where
  errorMessage : Option String
  detections : List DetectedLanguage
deriving Repr

/-- The parsed JSON body of a translate-text response, analogously. -/
structure TranslateBody where
  errorMessage : Option String
  translations : List Translation
deriving Repr

/-- `GoogleTranslator` state (api.py lines 39-54): the token, the two bounded
caches (capacity `_cache_limit = 128`) and the stats counter. -/
structure GoogleTranslator where
  apiToken : Option String
  translationCache :
    FixedSizeOrderedDict (String × Int × Option String) TranslateTextResponse
  detectionCache : FixedSizeOrderedDict Int (Option DetectedLanguage)
  statsCounter : StatsCounter

/-- `GoogleTranslator.__init__` (api.py lines 40-54). -/
def GoogleTranslator.init (token : Option String) : GoogleTranslator :=
  ⟨token, FixedSizeOrderedDict.empty _ _ 128, FixedSizeOrderedDict.empty _ _ 128,
    StatsCounter.init⟩

/-- What one call to `detect_language` produced: the returned value or the
raised `GoogleTranslateAPIError` message, the updated translator state, and
how many HTTP requests were issued. -/
structure DetectOutcome where
  result : Except String (Option DetectedLanguage)
  state : GoogleTranslator
  networkCalls : Nat

/-- `GoogleTranslator.detect_language` (api.py lines 64-102).  `hashFn`
stands for Python's builtin `hash`; `resp` is what the network returns if a
request is issued; `cfg` backs the stats counter's lazy loads. -/
def detect_language (hashFn : String → Int) (cfg : BotConfig)
    (g : GoogleTranslator) (text : String) (guild : Option Nat)
    (resp : HttpResult DetectBody) : DetectOutcome :=
  if tokenFalsy g.apiToken then
    ⟨.error "The API token is missing.", g, 0⟩
  else
    let cache_key := hashFn text
    match g.detectionCache.get cache_key with
    | some cached => ⟨.ok cached, g, 0⟩
    | none =>
        match resp with
        | .failure => ⟨.ok none, g, 1⟩
        | .response status body =>
            if status ≠ 200 then ⟨.ok none, g, 1⟩
            else
              match body.errorMessage with
              | some m => ⟨.error m, g, 1⟩
              | none =>
                  let detection : DetectLanguageResponse := ⟨body.detections⟩
                  let lang := detection.language
                  ⟨.ok lang,
                    { g with
                      statsCounter :=
                        StatsCounter.add_detect cfg g.statsCounter guild
                      detectionCache :=
                        g.detectionCache.setItem cache_key lang },
                    1⟩

/-- The query parameters built by `translate_text` (api.py lines 126-133). -/
structure TranslateParams where
  q : String
  target : String
  key : String
  format : String
  source : Option String
deriving DecidableEq, Repr

/-- What one call to `translate_text` produced; `sentParams` records the
parameters of the HTTP request when one was issued. -/
structure TranslateOutcome where
  result : Except String (Option TranslateTextResponse)
  state : GoogleTranslator
  networkCalls : Nat
  sentParams : Option TranslateParams

/-- `GoogleTranslator.translate_text` (api.py lines 104-151). -/
def translate_text (hashFn : String → Int) (cfg : BotConfig)
    (g : GoogleTranslator) (target text : String) (from_lang : Option String)
    (guild : Option Nat) (resp : HttpResult TranslateBody) : TranslateOutcome :=
  if tokenFalsy g.apiToken then
    ⟨.error "The API token is missing.", g, 0, none⟩
  else
    let cache_key : String × Int × Option String := (target, hashFn text, from_lang)
    match g.translationCache.get cache_key with
    | some cached => ⟨.ok (some cached), g, 0, none⟩
    | none =>
        let params : TranslateParams :=
          { q := text
            target := target
            key := (g.apiToken.getD "")
            format := "text"
            source := from_lang.map stripLatn }
        match resp with
        | .failure => ⟨.ok none, g, 1, some params⟩
        | .response status body =>
            if status ≠ 200 then ⟨.ok none, g, 1, some params⟩
            else
              match body.errorMessage with
              | some m => ⟨.error m, g, 1, some params⟩
              | none =>
                  let translation : TranslateTextResponse := ⟨body.translations⟩
                  ⟨.ok (some translation),
                    { g with
                      statsCounter :=
                        StatsCounter.add_requests cfg g.statsCounter guild text
                      translationCache :=
                        g.translationCache.setItem cache_key translation },
                    1, some params⟩

/-- One per-message cooldown dict (registered default
`{"past_flags": [], "timeout": 0, "multiple": False}` in translate.py line 56,
plus the `"wait"` timestamp that `on_raw_reaction_add` adds before storing).
Timestamps are rationals standing for `time.time()` values. -/
structure Cooldown where
  past_flags : List String
  timeout : ℚ
  multiple : Bool
  wait : ℚ
deriving DecidableEq, Repr

/-- The slice of the cog's `self.cache` dict (translate.py lines 59-67) that
the cooldown machinery and the periodic loop touch. -/
structure BotCache where
  translations : List Nat
  cooldown_translations : List (Nat × Cooldown)
deriving Repr

/-- `GoogleTranslateAPI._check_cooldown` (api.py lines 473-482). -/
def check_cooldown (cache : BotCache) (now : ℚ) (message_id : Nat)
    (lang : String) : Bool :=
  match alistLookup cache.cooldown_translations message_id with
  | none => true
  | some cd =>
      if lang ∈ cd.past_flags then false
      else if ¬cd.multiple then false
      else if now < cd.wait then false
      else true

/-- The tracked-state update in `on_raw_reaction_add` (api.py lines 439-447):
start from the existing entry or from (a deep copy of) the configured global
cooldown, set `wait = now + timeout`, append the flag, and store. -/
def registerTrigger (cache : BotCache) (globalCd : Cooldown) (now : ℚ)
    (message_id : Nat) (flag : String) : BotCache :=
  let cooldown :=
    (alistLookup cache.cooldown_translations message_id).getD globalCd
  let cooldown :=
    { cooldown with
      wait := now + cooldown.timeout
      past_flags := cooldown.past_flags ++ [flag] }
  { cache with
    cooldown_translations :=
      alistSet cache.cooldown_translations message_id cooldown }

/-- The cooldown-relevant part of one reaction event: proceed only when
`_check_cooldown` allows it, and in that case record the trigger.  The two
sites use different strings for the same reaction: the check receives the
flag's language code, `FLAGS[str(payload.emoji)]["code"]` (api.py line 406),
while the tracked state appends `str(payload.emoji)` itself (line 446). -/
def cooldownStep (cache : BotCache) (globalCd : Cooldown) (now : ℚ)
    (message_id : Nat) (emoji code : String) : Bool × BotCache :=
  if check_cooldown cache now message_id code then
    (true, registerTrigger cache globalCd now message_id emoji)
  else
    (false, cache)

/-- `GoogleTranslateAPI.translation_loop` (api.py lines 310-314), the body of
the 120-second periodic task: reset `cache["translations"]` to `[]` and save
the stats counters. -/
def translation_loop (cache : BotCache) (cfg : BotConfig) (sc : StatsCounter) :
    BotCache × BotConfig :=
  ({ cache with translations := [] }, StatsCounter.save cfg sc)

section LanguageSelection

/-- If no candidate beats the running confidence, the loop keeps its
accumulator. -/
theorem pickLanguage_of_all_le (dets : List DetectedLanguage) (conf : ℚ)
    (ret : Option DetectedLanguage) (h : ∀ x ∈ dets, x.confidence ≤ conf) :
    pickLanguage dets conf ret = ret := by
  induction dets generalizing conf ret with
  | nil => rfl
  | cons d ds ih =>
      have hd : ¬(d.confidence > conf) :=
        not_lt.mpr (h d (List.mem_cons_self _ _))
      simp only [pickLanguage, if_neg hd]
      exact ih conf ret fun x hx => h x (List.mem_cons_of_mem _ hx)

/-- When some candidate strictly beats the running confidence, the loop
returns the earliest candidate of maximal confidence: everything before it is
strictly smaller, everything after it no larger. -/
theorem pickLanguage_spec (dets : List DetectedLanguage) :
    ∀ (conf : ℚ) (ret : Option DetectedLanguage),
      (∃ x ∈ dets, conf < x.confidence) →
      ∃ l₁ l l₂, dets = l₁ ++ l :: l₂ ∧ conf < l.confidence ∧
        (∀ y ∈ l₁, y.confidence < l.confidence) ∧
        (∀ y ∈ l₂, y.confidence ≤ l.confidence) ∧
        pickLanguage dets conf ret = some l := by
  induction dets with
  | nil =>
      intro conf ret h
      simp at h
  | cons d ds ih =>
      intro conf ret h
      by_cases hd : conf < d.confidence
      · by_cases hex : ∃ x ∈ ds, d.confidence < x.confidence
        · obtain ⟨l₁, l, l₂, hdec, hlt, hstrict, hle, hpick⟩ :=
            ih d.confidence (some d) hex
          refine ⟨d :: l₁, l, l₂, by rw [hdec, List.cons_append], lt_trans hd hlt,
            ?_, hle, ?_⟩
          · intro y hy
            rcases List.mem_cons.mp hy with rfl | hy'
            · exact hlt
            · exact hstrict y hy'
          · simp only [pickLanguage, if_pos (show d.confidence > conf from hd)]
            exact hpick
        · push_neg at hex
          refine ⟨[], d, ds, rfl, hd, by simp, fun y hy => hex y hy, ?_⟩
          simp only [pickLanguage, if_pos (show d.confidence > conf from hd)]
          exact pickLanguage_of_all_le ds d.confidence (some d) hex
      · have hex : ∃ x ∈ ds, conf < x.confidence := by
          obtain ⟨x, hx, hcx⟩ := h
          rcases List.mem_cons.mp hx with rfl | hx'
          · exact absurd hcx hd
          · exact ⟨x, hx', hcx⟩
        obtain ⟨l₁, l, l₂, hdec, hlt, hstrict, hle, hpick⟩ := ih conf ret hex
        refine ⟨d :: l₁, l, l₂, by rw [hdec, List.cons_append], hlt, ?_, hle, ?_⟩
        · intro y hy
          rcases List.mem_cons.mp hy with rfl | hy'
          · exact lt_of_le_of_lt (not_lt.mp hd) hlt
          · exact hstrict y hy'
        · simp only [pickLanguage, if_neg (show ¬(d.confidence > conf) from hd)]
          exact hpick

end LanguageSelection

/-- C7 (counterexample): the claim quantifies over every list of candidate
detections, but for the singleton list `[{lang: "es", confidence: 0.0}]` the
unique (hence maximal-confidence) candidate is not returned: because the
running maximum starts at `0.0` and only strictly larger confidences replace
it, the resolved language is `none` rather than the "es" candidate. -/
theorem claim_C7_counterexample :
    (DetectLanguageResponse.mk [⟨"es", false, 0⟩]).language = none ∧
    (DetectLanguageResponse.mk [⟨"es", false, 0⟩]).detections =
      [⟨"es", false, 0⟩] := by
  constructor <;> rfl

/-- C7 (amended): for every list of candidate detections in which at least
one candidate has positive confidence, the resolved `DetectedLanguage` is the
one with the strictly highest confidence, and on ties the earliest-index
candidate wins: the list splits as `l₁ ++ l :: l₂` with everything before `l`
strictly below and everything after no larger, and `language` returns `l`.
(For lists whose confidences are all ≤ 0 the result is `none`; see C10.) -/
theorem claim_C7_first_max_wins (dets : List DetectedLanguage)
    (h : ∃ x ∈ dets, 0 < x.confidence) :
    ∃ l₁ l l₂, dets = l₁ ++ l :: l₂ ∧ 0 < l.confidence ∧
      (∀ y ∈ l₁, y.confidence < l.confidence) ∧
      (∀ y ∈ l₂, y.confidence ≤ l.confidence) ∧
      (DetectLanguageResponse.mk dets).language = some l :=
  pickLanguage_spec dets 0 none h

/-- C7 witness: the amended theorem applied to the spec's example
`[{es, 0.4}, {en, 0.9}, {fr, 0.9}]`; the resolved language is the "en"
candidate (earliest maximal confidence). -/
theorem claim_C7_witness :
    (∃ l₁ l l₂,
      ([⟨"es", false, 2/5⟩, ⟨"en", false, 9/10⟩, ⟨"fr", false, 9/10⟩] :
        List DetectedLanguage) = l₁ ++ l :: l₂ ∧ 0 < l.confidence ∧
      (∀ y ∈ l₁, y.confidence < l.confidence) ∧
      (∀ y ∈ l₂, y.confidence ≤ l.confidence) ∧
      (DetectLanguageResponse.mk
        [⟨"es", false, 2/5⟩, ⟨"en", false, 9/10⟩, ⟨"fr", false, 9/10⟩]).language =
        some l) ∧
    (DetectLanguageResponse.mk
      [⟨"es", false, 2/5⟩, ⟨"en", false, 9/10⟩, ⟨"fr", false, 9/10⟩]).language =
      some ⟨"en", false, 9/10⟩ := by
  refine ⟨claim_C7_first_max_wins _ ⟨⟨"en", false, 9/10⟩, by norm_num, by norm_num⟩, ?_⟩
  norm_num [DetectLanguageResponse.language, pickLanguage]

/-- C10: a non-empty detections list in which every candidate has confidence
≤ 0.0 resolves to no language at all, because the selection loop only picks a
candidate whose confidence strictly exceeds the running maximum, which starts
at 0.0. -/
theorem claim_C10_nonpositive_resolves_none (dets : List DetectedLanguage)
    (_hne : dets ≠ []) (h : ∀ x ∈ dets, x.confidence ≤ 0) :
    (DetectLanguageResponse.mk dets).language = none :=
  pickLanguage_of_all_le dets 0 none h

/-- C10 witness: the singleton zero-confidence list is non-empty yet resolves
to `none`. -/
theorem claim_C10_witness :
    (DetectLanguageResponse.mk [⟨"xx", true, 0⟩]).language = none :=
  claim_C10_nonpositive_resolves_none [⟨"xx", true, 0⟩] (by decide) (by decide)

/-- C6 (counterexample): one firing of the 120-second loop on a cache holding
tracked cooldown state for message 7 clears the "already fully translated"
markers but leaves the per-message cooldown state untouched, contradicting
the claim that all tracked cooldown state is cleared as well. -/
theorem claim_C6_counterexample :
    (translation_loop ⟨[5], [(7, ⟨["fr"], 10, false, 3⟩)]⟩
        ⟨⟨0, 0, 0⟩, fun _ => ⟨0, 0, 0⟩⟩ StatsCounter.init).1.cooldown_translations =
      [(7, ⟨["fr"], 10, false, 3⟩)] ∧
    (translation_loop ⟨[5], [(7, ⟨["fr"], 10, false, 3⟩)]⟩
        ⟨⟨0, 0, 0⟩, fun _ => ⟨0, 0, 0⟩⟩ StatsCounter.init).1.translations = [] := by
  constructor <;> rfl

/-- C6 (amended): on each firing of the 120-second periodic task, all
"message already fully translated" markers (`cache["translations"]`) are
cleared regardless of any `wait_until` value, but the per-message tracked
cooldown state (`cache["cooldown_translations"]`) is left unchanged — the
loop never clears it. -/
theorem claim_C6_loop_clears_markers_only (cache : BotCache) (cfg : BotConfig)
    (sc : StatsCounter) :
    (translation_loop cache cfg sc).1.translations = [] ∧
    (translation_loop cache cfg sc).1.cooldown_translations =
      cache.cooldown_translations :=
  ⟨rfl, rfl⟩

/-- C4: with no API credential configured (`if not self._api_token` — `None`
or the empty string), both `detect_language` and `translate_text` raise the
typed `GoogleTranslateAPIError` immediately: no network request is issued,
no request parameters are built, and the translator state (caches and usage
counters) is returned unchanged. -/
theorem claim_C4_missing_token_aborts (hashFn : String → Int) (cfg : BotConfig)
    (g : GoogleTranslator) (text target : String) (from_lang : Option String)
    (guild : Option Nat) (respD : HttpResult DetectBody)
    (respT : HttpResult TranslateBody)
    (h : tokenFalsy g.apiToken = true) :
    detect_language hashFn cfg g text guild respD =
      ⟨.error "The API token is missing.", g, 0⟩ ∧
    translate_text hashFn cfg g target text from_lang guild respT =
      ⟨.error "The API token is missing.", g, 0, none⟩ := by
  constructor
  · rw [detect_language, if_pos h]
  · rw [translate_text, if_pos h]

/-- C4 witness: a translator constructed with no token at all. -/
theorem claim_C4_witness :
    detect_language (fun _ => 0) ⟨⟨0, 0, 0⟩, fun _ => ⟨0, 0, 0⟩⟩
        (GoogleTranslator.init none) "bonjour" none .failure =
      ⟨.error "The API token is missing.", GoogleTranslator.init none, 0⟩ ∧
    translate_text (fun _ => 0) ⟨⟨0, 0, 0⟩, fun _ => ⟨0, 0, 0⟩⟩
        (GoogleTranslator.init none) "en" "bonjour" none none .failure =
      ⟨.error "The API token is missing.", GoogleTranslator.init none, 0, none⟩ :=
  claim_C4_missing_token_aborts (fun _ => 0) ⟨⟨0, 0, 0⟩, fun _ => ⟨0, 0, 0⟩⟩
    (GoogleTranslator.init none) "bonjour" "en" none none .failure .failure rfl

/-- Reading `_check_cooldown` on a message that has tracked state. -/
theorem check_cooldown_some (cache : BotCache) (now : ℚ) (mid : Nat)
    (lg : String) (cd : Cooldown)
    (hcd : alistLookup cache.cooldown_translations mid = some cd) :
    check_cooldown cache now mid lg =
      if lg ∈ cd.past_flags then false
      else if ¬cd.multiple then false
      else if now < cd.wait then false
      else true := by
  rw [check_cooldown, hcd]

/-- C5 (counterexample): with `allow_multiple = true` and `timeout = 0`, the
cooldown check ACCEPTS an immediately repeated trigger on the same message:
the used set stores `str(payload.emoji)` (api.py line 446) while the check
receives the flag's language code (api.py line 406), so the
duplicate-same-trigger rejection never fires in the reaction flow.  The
claim says the repeat is rejected. -/
theorem claim_C5_counterexample :
    (cooldownStep ⟨[], []⟩ ⟨[], 0, true, 0⟩ 0 9 "🇫🇷" "fr").1 = true ∧
    (cooldownStep (cooldownStep ⟨[], []⟩ ⟨[], 0, true, 0⟩ 0 9 "🇫🇷" "fr").2
      ⟨[], 0, true, 0⟩ 0 9 "🇫🇷" "fr").1 = true := by
  refine ⟨rfl, ?_⟩
  norm_num [cooldownStep, check_cooldown, registerTrigger, alistLookup, alistSet,
    List.find?]
  rw [if_neg (by decide)]

/-- C5 (amended): `_check_cooldown` evaluates its policy in order on the
trigger id it is given: an id already in the used set is rejected; otherwise
`multiple = false` rejects; otherwise a current time before `wait` rejects;
otherwise the trigger is accepted.  In the reaction flow the used set stores
the emoji string while the check receives the flag's language code, so in
the scenarios (fresh message `m0`, code never equal to a stored emoji
string): trigger A succeeds; immediately repeating A is rejected when
`multiple = false` (by the multiple-trigger branch, not the used set) but
ACCEPTED when `multiple = true` and `timeout = 0`; a different trigger B is
likewise rejected when `multiple = false` and accepted immediately when
`multiple = true` and `timeout = 0`. -/
theorem claim_C5_cooldown_policy (cache : BotCache) (now : ℚ) (mid : Nat)
    (lg : String) (cd : Cooldown) (cache2 : BotCache) (globalCd : Cooldown)
    (t0 t1 : ℚ) (m0 : Nat) (eA cA eB cB : String)
    (hcd : alistLookup cache.cooldown_translations mid = some cd)
    (hfresh : alistLookup cache2.cooldown_translations m0 = none)
    (hAe : cA ≠ eA) (hBe : cB ≠ eA) (hflags : globalCd.past_flags = [])
    (ht : t0 ≤ t1) :
    (lg ∈ cd.past_flags → check_cooldown cache now mid lg = false) ∧
    (lg ∉ cd.past_flags → cd.multiple = false →
      check_cooldown cache now mid lg = false) ∧
    (lg ∉ cd.past_flags → cd.multiple = true → now < cd.wait →
      check_cooldown cache now mid lg = false) ∧
    (lg ∉ cd.past_flags → cd.multiple = true → cd.wait ≤ now →
      check_cooldown cache now mid lg = true) ∧
    (cooldownStep cache2 globalCd t0 m0 eA cA).1 = true ∧
    (globalCd.multiple = false →
      (cooldownStep (cooldownStep cache2 globalCd t0 m0 eA cA).2 globalCd t1 m0
        eA cA).1 = false) ∧
    (globalCd.multiple = true → globalCd.timeout = 0 →
      (cooldownStep (cooldownStep cache2 globalCd t0 m0 eA cA).2 globalCd t1 m0
        eA cA).1 = true) ∧
    (globalCd.multiple = false →
      (cooldownStep (cooldownStep cache2 globalCd t0 m0 eA cA).2 globalCd t1 m0
        eB cB).1 = false) ∧
    (globalCd.multiple = true → globalCd.timeout = 0 →
      (cooldownStep (cooldownStep cache2 globalCd t0 m0 eA cA).2 globalCd t1 m0
        eB cB).1 = true) := by
  have hchk0 : check_cooldown cache2 t0 m0 cA = true := by
    rw [check_cooldown, hfresh]
  have hstep1 : cooldownStep cache2 globalCd t0 m0 eA cA =
      (true, registerTrigger cache2 globalCd t0 m0 eA) := by
    rw [cooldownStep, if_pos hchk0]
  have hsnd : (cooldownStep cache2 globalCd t0 m0 eA cA).2 =
      registerTrigger cache2 globalCd t0 m0 eA := by
    rw [hstep1]
  have hreg : (registerTrigger cache2 globalCd t0 m0 eA).cooldown_translations =
      alistSet cache2.cooldown_translations m0
        { globalCd with
          wait := t0 + globalCd.timeout
          past_flags := globalCd.past_flags ++ [eA] } := by
    rw [registerTrigger, hfresh]
    rfl
  have hlook : alistLookup
      (registerTrigger cache2 globalCd t0 m0 eA).cooldown_translations m0 =
      some { globalCd with
             wait := t0 + globalCd.timeout
             past_flags := globalCd.past_flags ++ [eA] } := by
    rw [hreg]
    exact alistLookup_set_self _ _ _
  refine ⟨?_, ?_, ?_, ?_, ?_, ?_, ?_, ?_, ?_⟩
  · intro hin
    rw [check_cooldown_some cache now mid lg cd hcd, if_pos hin]
  · intro hout hmul
    rw [check_cooldown_some cache now mid lg cd hcd, if_neg hout,
      if_pos (by rw [hmul]; exact Bool.false_ne_true)]
  · intro hout hmul hwait
    rw [check_cooldown_some cache now mid lg cd hcd, if_neg hout,
      if_neg (by rw [hmul]; exact fun hc => hc rfl), if_pos hwait]
  · intro hout hmul hwait
    rw [check_cooldown_some cache now mid lg cd hcd, if_neg hout,
      if_neg (by rw [hmul]; exact fun hc => hc rfl), if_neg (not_lt.mpr hwait)]
  · rw [hstep1]
  · intro hmul
    rw [hsnd]
    have hchk : check_cooldown (registerTrigger cache2 globalCd t0 m0 eA) t1 m0
        cA = false := by
      rw [check_cooldown_some _ _ _ _ _ hlook,
        if_neg (by simp [hflags, hAe]), if_pos (by simp [hmul])]
    rw [cooldownStep, hchk]
    rfl
  · intro hmul htimeout
    rw [hsnd]
    have hchk : check_cooldown (registerTrigger cache2 globalCd t0 m0 eA) t1 m0
        cA = true := by
      rw [check_cooldown_some _ _ _ _ _ hlook,
        if_neg (by simp [hflags, hAe]), if_neg (by simp [hmul]),
        if_neg (by simp only [htimeout, add_zero]; exact not_lt.mpr ht)]
    rw [cooldownStep, hchk]
    rfl
  · intro hmul
    rw [hsnd]
    have hchk : check_cooldown (registerTrigger cache2 globalCd t0 m0 eA) t1 m0
        cB = false := by
      rw [check_cooldown_some _ _ _ _ _ hlook,
        if_neg (by simp [hflags, hBe]), if_pos (by simp [hmul])]
    rw [cooldownStep, hchk]
    rfl
  · intro hmul htimeout
    rw [hsnd]
    have hchk : check_cooldown (registerTrigger cache2 globalCd t0 m0 eA) t1 m0
        cB = true := by
      rw [check_cooldown_some _ _ _ _ _ hlook,
        if_neg (by simp [hflags, hBe]), if_neg (by simp [hmul]),
        if_neg (by simp only [htimeout, add_zero]; exact not_lt.mpr ht)]
    rw [cooldownStep, hchk]
    rfl

/-- C5 witness: a concrete run with `multiple = true`, `timeout = 0`, the
French flag emoji (code "fr") and the German flag emoji (code "de") on
message 9, checked at equal timestamps. -/
theorem claim_C5_witness :
    (("fr" ∈ (⟨["fr"], 5, true, 10⟩ : Cooldown).past_flags →
      check_cooldown ⟨[], [(3, ⟨["fr"], 5, true, 10⟩)]⟩ 0 3 "fr" = false) ∧
    ("fr" ∉ (⟨["fr"], 5, true, 10⟩ : Cooldown).past_flags →
      (⟨["fr"], 5, true, 10⟩ : Cooldown).multiple = false →
      check_cooldown ⟨[], [(3, ⟨["fr"], 5, true, 10⟩)]⟩ 0 3 "fr" = false) ∧
    ("fr" ∉ (⟨["fr"], 5, true, 10⟩ : Cooldown).past_flags →
      (⟨["fr"], 5, true, 10⟩ : Cooldown).multiple = true →
      (0 : ℚ) < (⟨["fr"], 5, true, 10⟩ : Cooldown).wait →
      check_cooldown ⟨[], [(3, ⟨["fr"], 5, true, 10⟩)]⟩ 0 3 "fr" = false) ∧
    ("fr" ∉ (⟨["fr"], 5, true, 10⟩ : Cooldown).past_flags →
      (⟨["fr"], 5, true, 10⟩ : Cooldown).multiple = true →
      (⟨["fr"], 5, true, 10⟩ : Cooldown).wait ≤ 0 →
      check_cooldown ⟨[], [(3, ⟨["fr"], 5, true, 10⟩)]⟩ 0 3 "fr" = true) ∧
    (cooldownStep ⟨[], []⟩ ⟨[], 0, true, 0⟩ 0 9 "🇫🇷" "fr").1 = true ∧
    ((⟨[], 0, true, 0⟩ : Cooldown).multiple = false →
      (cooldownStep (cooldownStep ⟨[], []⟩ ⟨[], 0, true, 0⟩ 0 9 "🇫🇷" "fr").2
        ⟨[], 0, true, 0⟩ 0 9 "🇫🇷" "fr").1 = false) ∧
    ((⟨[], 0, true, 0⟩ : Cooldown).multiple = true →
      (⟨[], 0, true, 0⟩ : Cooldown).timeout = 0 →
      (cooldownStep (cooldownStep ⟨[], []⟩ ⟨[], 0, true, 0⟩ 0 9 "🇫🇷" "fr").2
        ⟨[], 0, true, 0⟩ 0 9 "🇫🇷" "fr").1 = true) ∧
    ((⟨[], 0, true, 0⟩ : Cooldown).multiple = false →
      (cooldownStep (cooldownStep ⟨[], []⟩ ⟨[], 0, true, 0⟩ 0 9 "🇫🇷" "fr").2
        ⟨[], 0, true, 0⟩ 0 9 "🇩🇪" "de").1 = false) ∧
    ((⟨[], 0, true, 0⟩ : Cooldown).multiple = true →
      (⟨[], 0, true, 0⟩ : Cooldown).timeout = 0 →
      (cooldownStep (cooldownStep ⟨[], []⟩ ⟨[], 0, true, 0⟩ 0 9 "🇫🇷" "fr").2
        ⟨[], 0, true, 0⟩ 0 9 "🇩🇪" "de").1 = true)) :=
  claim_C5_cooldown_policy ⟨[], [(3, ⟨["fr"], 5, true, 10⟩)]⟩ 0 3 "fr"
    ⟨["fr"], 5, true, 10⟩ ⟨[], []⟩ ⟨[], 0, true, 0⟩ 0 0 9 "🇫🇷" "fr" "🇩🇪" "de"
    rfl rfl (by decide) (by decide) rfl (le_refl 0)

/-- What `StatsCounter.save` writes for one guild scope. -/
theorem save_guildCount (cfg : BotConfig) (sc : StatsCounter) (gid : Nat) :
    (StatsCounter.save cfg sc).guildCount gid =
      match alistLookup sc.guildCounter gid with
      | some m => m
      | none => cfg.guildCount gid := by
  obtain ⟨gc, glob⟩ := sc
  cases glob <;> rfl

/-- C8: starting from a guild scope that is untouched in memory and whose
durable `characters` counter is 0, two `add_requests` increments with
messages of lengths 10 and 5 accumulate only in memory, and the flush writes
the accumulated 15 to the durable store; the flush leaves the durable
counters of every scope still untouched in memory unchanged. -/
theorem claim_C8_counters_accumulate_and_flush (cfg : BotConfig)
    (sc : StatsCounter) (gid gid2 : Nat) (s1 s2 : String)
    (hdur : (cfg.guildCount gid).characters = 0)
    (huntouched : alistLookup sc.guildCounter gid = none)
    (hlen1 : s1.length = 10) (hlen2 : s2.length = 5)
    (hg2 : alistLookup
      (StatsCounter.add_requests cfg
        (StatsCounter.add_requests cfg sc (some gid) s1) (some gid) s2).guildCounter
      gid2 = none) :
    ((StatsCounter.save cfg
      (StatsCounter.add_requests cfg
        (StatsCounter.add_requests cfg sc (some gid) s1) (some gid) s2)).guildCount
      gid).characters = 15 ∧
    (StatsCounter.save cfg
      (StatsCounter.add_requests cfg
        (StatsCounter.add_requests cfg sc (some gid) s1) (some gid) s2)).guildCount
      gid2 = cfg.guildCount gid2 := by
  have h1 : (StatsCounter.add_requests cfg sc (some gid) s1).guildCounter =
      alistSet sc.guildCounter gid
        { cfg.guildCount gid with
          requests := (cfg.guildCount gid).requests + 1
          characters := (cfg.guildCount gid).characters + s1.length } := by
    rw [StatsCounter.add_requests, huntouched]
    rfl
  have hlook1 : alistLookup
      (StatsCounter.add_requests cfg sc (some gid) s1).guildCounter gid =
      some { cfg.guildCount gid with
             requests := (cfg.guildCount gid).requests + 1
             characters := (cfg.guildCount gid).characters + s1.length } := by
    rw [h1]
    exact alistLookup_set_self _ _ _
  have h2 : (StatsCounter.add_requests cfg
      (StatsCounter.add_requests cfg sc (some gid) s1) (some gid) s2).guildCounter =
      alistSet (StatsCounter.add_requests cfg sc (some gid) s1).guildCounter gid
        { cfg.guildCount gid with
          requests := (cfg.guildCount gid).requests + 1 + 1
          characters := (cfg.guildCount gid).characters + s1.length + s2.length } := by
    rw [StatsCounter.add_requests, hlook1]
    rfl
  have hlook2 : alistLookup
      (StatsCounter.add_requests cfg
        (StatsCounter.add_requests cfg sc (some gid) s1)
        (some gid) s2).guildCounter gid =
      some { cfg.guildCount gid with
             requests := (cfg.guildCount gid).requests + 1 + 1
             characters := (cfg.guildCount gid).characters + s1.length + s2.length } := by
    rw [h2]
    exact alistLookup_set_self _ _ _
  constructor
  · rw [save_guildCount]
    simp only [hlook2]
    rw [hdur, hlen1, hlen2]
  · rw [save_guildCount]
    simp only [hg2]

/-- C8 witness: fresh counters, the all-zero durable store, guild 1 touched
with messages of lengths 10 and 5, guild 2 untouched. -/
theorem claim_C8_witness :
    ((StatsCounter.save ⟨⟨0, 0, 0⟩, fun _ => ⟨0, 0, 0⟩⟩
      (StatsCounter.add_requests ⟨⟨0, 0, 0⟩, fun _ => ⟨0, 0, 0⟩⟩
        (StatsCounter.add_requests ⟨⟨0, 0, 0⟩, fun _ => ⟨0, 0, 0⟩⟩
          StatsCounter.init (some 1) "aaaaaaaaaa") (some 1) "bbbbb")).guildCount
      1).characters = 15 ∧
    (StatsCounter.save ⟨⟨0, 0, 0⟩, fun _ => ⟨0, 0, 0⟩⟩
      (StatsCounter.add_requests ⟨⟨0, 0, 0⟩, fun _ => ⟨0, 0, 0⟩⟩
        (StatsCounter.add_requests ⟨⟨0, 0, 0⟩, fun _ => ⟨0, 0, 0⟩⟩
          StatsCounter.init (some 1) "aaaaaaaaaa") (some 1) "bbbbb")).guildCount
      2 = (⟨⟨0, 0, 0⟩, fun _ => ⟨0, 0, 0⟩⟩ : BotConfig).guildCount 2 :=
  claim_C8_counters_accumulate_and_flush ⟨⟨0, 0, 0⟩, fun _ => ⟨0, 0, 0⟩⟩
    StatsCounter.init 1 2 "aaaaaaaaaa" "bbbbb" rfl rfl rfl rfl (by decide)

theorem foldl_setItem_maxLen {K V : Type} [DecidableEq K] (ops : List (K × V))
    (d : FixedSizeOrderedDict K V) :
    (ops.foldl (fun d p => d.setItem p.1 p.2) d).maxLen = d.maxLen := by
  induction ops generalizing d with
  | nil => rfl
  | cons p t ih => rw [List.foldl_cons, ih, setItem_maxLen]

theorem foldl_setItem_length_le {K V : Type} [DecidableEq K] (ops : List (K × V))
    (d : FixedSizeOrderedDict K V) (hpos : 0 < d.maxLen)
    (hle : d.entries.length ≤ d.maxLen) :
    (ops.foldl (fun d p => d.setItem p.1 p.2) d).entries.length ≤ d.maxLen := by
  induction ops generalizing d with
  | nil => exact hle
  | cons p t ih =>
      rw [List.foldl_cons]
      have h1 := setItem_length_le d p.1 p.2 hpos hle
      have h2 := setItem_maxLen d p.1 p.2
      have h3 := ih (d.setItem p.1 p.2) (by rw [h2]; exact hpos) (by rw [h2]; exact h1)
      rw [h2] at h3
      exact h3

/-- C2: for every sequence of puts into a `FixedSizeOrderedDict` of capacity
`N > 0`, the size never exceeds `N`; a new key inserted at capacity evicts
exactly the oldest surviving entry (the head of the insertion order); a new
key inserted below capacity evicts nothing; and re-inserting an existing key
leaves the insertion order of the keys unchanged (FIFO eviction, no
promotion — lookups are pure reads in this embedding, since
`OrderedDict.__getitem__` is not overridden and never reorders). -/
theorem claim_C2_fifo_bounded_cache {K V : Type} [DecidableEq K] (N : Nat)
    (hN : 0 < N) :
    (∀ ops : List (K × V),
      (ops.foldl (fun d p => d.setItem p.1 p.2)
        (FixedSizeOrderedDict.empty K V N)).entries.length ≤ N) ∧
    (∀ (d : FixedSizeOrderedDict K V) (k : K) (v : V), d.maxLen = N →
      d.entries.length = N →
      d.entries.any (fun p => decide (p.1 = k)) = false →
      (d.setItem k v).entries = d.entries.tail ++ [(k, v)]) ∧
    (∀ (d : FixedSizeOrderedDict K V) (k : K) (v : V), d.maxLen = N →
      d.entries.length < N →
      d.entries.any (fun p => decide (p.1 = k)) = false →
      (d.setItem k v).entries = d.entries ++ [(k, v)]) ∧
    (∀ (d : FixedSizeOrderedDict K V) (k : K) (v : V), d.maxLen = N →
      d.entries.length ≤ N →
      d.entries.any (fun p => decide (p.1 = k)) = true →
      (d.setItem k v).entries.map Prod.fst = d.entries.map Prod.fst) := by
  refine ⟨?_, ?_, ?_, ?_⟩
  · intro ops
    exact foldl_setItem_length_le ops (FixedSizeOrderedDict.empty K V N) hN
      (by simp [FixedSizeOrderedDict.empty])
  · intro d k v hmax hfull hnew
    exact setItem_full_evicts_oldest d k v (by omega) (by omega) hnew
  · intro d k v hmax hlt hnew
    exact setItem_not_full_appends d k v (by omega) hnew
  · intro d k v hmax hle hmem
    exact setItem_mem_keys d k v (by omega) hmem

/-- C2 witness: capacity 2 over `Nat` keys — three inserts stay within the
bound, an insert at capacity evicts the head, an insert below capacity
appends, and re-inserting key 1 keeps the key order. -/
theorem claim_C2_witness :
    (([((1 : Nat), (10 : Nat)), (2, 20), (3, 30)]).foldl
      (fun d p => d.setItem p.1 p.2)
      (FixedSizeOrderedDict.empty Nat Nat 2)).entries.length ≤ 2 ∧
    ((⟨2, [(1, 10), (2, 20)]⟩ : FixedSizeOrderedDict Nat Nat).setItem 3 30).entries =
      [(2, 20), (3, 30)] ∧
    ((⟨2, [(1, 10)]⟩ : FixedSizeOrderedDict Nat Nat).setItem 2 20).entries =
      [(1, 10), (2, 20)] ∧
    ((⟨2, [(1, 10), (2, 20)]⟩ : FixedSizeOrderedDict Nat Nat).setItem 1 99).entries.map
      Prod.fst = [1, 2] := by
  have h := @claim_C2_fifo_bounded_cache Nat Nat _ 2 (by decide)
  refine ⟨h.1 [(1, 10), (2, 20), (3, 30)], ?_, ?_, ?_⟩
  · have := h.2.1 ⟨2, [(1, 10), (2, 20)]⟩ 3 30 rfl rfl (by decide)
    simpa using this
  · have := h.2.2.1 ⟨2, [(1, 10)]⟩ 2 20 rfl (by decide) (by decide)
    simpa using this
  · have := h.2.2.2 ⟨2, [(1, 10), (2, 20)]⟩ 1 99 rfl (by decide) (by decide)
    simpa using this

/-- C3: on a cache miss with a configured token, both operations return
absent (`.ok none`) without raising when the HTTP status is not 200 or the
request raises a transport exception; an HTTP 200 whose JSON body embeds an
error object instead raises `GoogleTranslateAPIError` carrying the API's
message text. -/
theorem claim_C3_transport_vs_api_error (hashFn : String → Int) (cfg : BotConfig)
    (g : GoogleTranslator) (text target : String) (from_lang : Option String)
    (guild : Option Nat) (status : Nat) (bodyD : DetectBody)
    (bodyT : TranslateBody) (m : String)
    (htok : tokenFalsy g.apiToken = false)
    (hmissD : g.detectionCache.get (hashFn text) = none)
    (hmissT : g.translationCache.get (target, hashFn text, from_lang) = none)
    (hstatus : status ≠ 200) :
    (detect_language hashFn cfg g text guild (.response status bodyD)).result =
      .ok none ∧
    (detect_language hashFn cfg g text guild .failure).result = .ok none ∧
    (bodyD.errorMessage = some m →
      (detect_language hashFn cfg g text guild (.response 200 bodyD)).result =
        .error m) ∧
    (translate_text hashFn cfg g target text from_lang guild
      (.response status bodyT)).result = .ok none ∧
    (translate_text hashFn cfg g target text from_lang guild .failure).result =
      .ok none ∧
    (bodyT.errorMessage = some m →
      (translate_text hashFn cfg g target text from_lang guild
        (.response 200 bodyT)).result = .error m) := by
  refine ⟨?_, ?_, ?_, ?_, ?_, ?_⟩
  · rw [detect_language, if_neg (by rw [htok]; exact Bool.false_ne_true)]
    simp only [hmissD]
    rw [if_pos hstatus]
  · rw [detect_language, if_neg (by rw [htok]; exact Bool.false_ne_true)]
    simp only [hmissD]
  · intro herr
    rw [detect_language, if_neg (by rw [htok]; exact Bool.false_ne_true)]
    simp only [hmissD]
    rw [if_neg (fun hc => hc rfl)]
    simp only [herr]
  · rw [translate_text, if_neg (by rw [htok]; exact Bool.false_ne_true)]
    simp only [hmissT]
    rw [if_pos hstatus]
  · rw [translate_text, if_neg (by rw [htok]; exact Bool.false_ne_true)]
    simp only [hmissT]
  · intro herr
    rw [translate_text, if_neg (by rw [htok]; exact Bool.false_ne_true)]
    simp only [hmissT]
    rw [if_neg (fun hc => hc rfl)]
    simp only [herr]

/-- C3 witness: a fresh translator with token "k", an HTTP 500, a transport
failure and a 200 carrying `{"error": {"message": "Daily Limit Exceeded"}}`. -/
theorem claim_C3_witness :
    (detect_language (fun _ => 0) ⟨⟨0, 0, 0⟩, fun _ => ⟨0, 0, 0⟩⟩
      (GoogleTranslator.init (some "k")) "hola" none
      (.response 500 ⟨none, []⟩)).result = .ok none ∧
    (detect_language (fun _ => 0) ⟨⟨0, 0, 0⟩, fun _ => ⟨0, 0, 0⟩⟩
      (GoogleTranslator.init (some "k")) "hola" none .failure).result = .ok none ∧
    ((⟨some "Daily Limit Exceeded", []⟩ : DetectBody).errorMessage =
        some "Daily Limit Exceeded" →
      (detect_language (fun _ => 0) ⟨⟨0, 0, 0⟩, fun _ => ⟨0, 0, 0⟩⟩
        (GoogleTranslator.init (some "k")) "hola" none
        (.response 200 ⟨some "Daily Limit Exceeded", []⟩)).result =
        .error "Daily Limit Exceeded") ∧
    (translate_text (fun _ => 0) ⟨⟨0, 0, 0⟩, fun _ => ⟨0, 0, 0⟩⟩
      (GoogleTranslator.init (some "k")) "en" "hola" none none
      (.response 500 ⟨none, []⟩)).result = .ok none ∧
    (translate_text (fun _ => 0) ⟨⟨0, 0, 0⟩, fun _ => ⟨0, 0, 0⟩⟩
      (GoogleTranslator.init (some "k")) "en" "hola" none none
      .failure).result = .ok none ∧
    ((⟨some "Daily Limit Exceeded", []⟩ : TranslateBody).errorMessage =
        some "Daily Limit Exceeded" →
      (translate_text (fun _ => 0) ⟨⟨0, 0, 0⟩, fun _ => ⟨0, 0, 0⟩⟩
        (GoogleTranslator.init (some "k")) "en" "hola" none none
        (.response 200 ⟨some "Daily Limit Exceeded", []⟩)).result =
        .error "Daily Limit Exceeded") :=
  claim_C3_transport_vs_api_error (fun _ => 0) ⟨⟨0, 0, 0⟩, fun _ => ⟨0, 0, 0⟩⟩
    (GoogleTranslator.init (some "k")) "hola" "en" none none 500
    ⟨some "Daily Limit Exceeded", []⟩ ⟨some "Daily Limit Exceeded", []⟩
    "Daily Limit Exceeded" rfl rfl rfl (by decide)

/-- C1: with a token configured and the text's fingerprint not yet cached, a
successful `detect_language` issues exactly one network call, stores the
resolved language in the detection cache under the fingerprint, and a second
call with the same text issues no network call, increments no counter and
changes no state: it returns the cached result, whatever the network would
have answered the second time. -/
theorem claim_C1_detect_cache_dedup (hashFn : String → Int) (cfg : BotConfig)
    (g : GoogleTranslator) (text : String) (guild guild2 : Option Nat)
    (body : DetectBody) (resp2 : HttpResult DetectBody)
    (htok : tokenFalsy g.apiToken = false)
    (hmiss : g.detectionCache.get (hashFn text) = none)
    (hok : body.errorMessage = none)
    (hpos : 0 < g.detectionCache.maxLen)
    (hle : g.detectionCache.entries.length ≤ g.detectionCache.maxLen) :
    (detect_language hashFn cfg g text guild (.response 200 body)).networkCalls =
      1 ∧
    (detect_language hashFn cfg g text guild (.response 200 body)).result =
      .ok (DetectLanguageResponse.language ⟨body.detections⟩) ∧
    (detect_language hashFn cfg g text guild
      (.response 200 body)).state.detectionCache.get (hashFn text) =
      some (DetectLanguageResponse.language ⟨body.detections⟩) ∧
    detect_language hashFn cfg
      (detect_language hashFn cfg g text guild (.response 200 body)).state
      text guild2 resp2 =
      ⟨.ok (DetectLanguageResponse.language ⟨body.detections⟩),
       (detect_language hashFn cfg g text guild (.response 200 body)).state,
       0⟩ := by
  have ho1 : detect_language hashFn cfg g text guild (.response 200 body) =
      ⟨.ok (DetectLanguageResponse.language ⟨body.detections⟩),
       { g with
         statsCounter := StatsCounter.add_detect cfg g.statsCounter guild
         detectionCache := g.detectionCache.setItem (hashFn text)
           (DetectLanguageResponse.language ⟨body.detections⟩) },
       1⟩ := by
    rw [detect_language, if_neg (by rw [htok]; exact Bool.false_ne_true)]
    simp only [hmiss]
    rw [if_neg (fun hc => hc rfl)]
    simp only [hok]
  have hget : (detect_language hashFn cfg g text guild
      (.response 200 body)).state.detectionCache.get (hashFn text) =
      some (DetectLanguageResponse.language ⟨body.detections⟩) := by
    rw [ho1]
    exact get_setItem_self g.detectionCache (hashFn text)
      (DetectLanguageResponse.language ⟨body.detections⟩) hpos hle
  have htok2 : tokenFalsy (detect_language hashFn cfg g text guild
      (.response 200 body)).state.apiToken = false := by
    rw [ho1]
    exact htok
  refine ⟨by rw [ho1], by rw [ho1], hget, ?_⟩
  rw [detect_language, if_neg (by rw [htok2]; exact Bool.false_ne_true)]
  simp only [hget]

/-- C1 witness: fresh translator with token "k", the text "hola" detected as
Spanish once; the second call sees only the cache even though the network
would now fail. -/
theorem claim_C1_witness :
    (detect_language (fun s => (s.length : Int)) ⟨⟨0, 0, 0⟩, fun _ => ⟨0, 0, 0⟩⟩
      (GoogleTranslator.init (some "k")) "hola" none
      (.response 200 ⟨none, [⟨"es", true, 1⟩]⟩)).networkCalls = 1 ∧
    (detect_language (fun s => (s.length : Int)) ⟨⟨0, 0, 0⟩, fun _ => ⟨0, 0, 0⟩⟩
      (GoogleTranslator.init (some "k")) "hola" none
      (.response 200 ⟨none, [⟨"es", true, 1⟩]⟩)).result =
      .ok (DetectLanguageResponse.language ⟨[⟨"es", true, 1⟩]⟩) ∧
    (detect_language (fun s => (s.length : Int)) ⟨⟨0, 0, 0⟩, fun _ => ⟨0, 0, 0⟩⟩
      (GoogleTranslator.init (some "k")) "hola" none
      (.response 200 ⟨none, [⟨"es", true, 1⟩]⟩)).state.detectionCache.get
      ((fun s => (s.length : Int)) "hola") =
      some (DetectLanguageResponse.language ⟨[⟨"es", true, 1⟩]⟩) ∧
    detect_language (fun s => (s.length : Int)) ⟨⟨0, 0, 0⟩, fun _ => ⟨0, 0, 0⟩⟩
      (detect_language (fun s => (s.length : Int)) ⟨⟨0, 0, 0⟩, fun _ => ⟨0, 0, 0⟩⟩
        (GoogleTranslator.init (some "k")) "hola" none
        (.response 200 ⟨none, [⟨"es", true, 1⟩]⟩)).state "hola" none .failure =
      ⟨.ok (DetectLanguageResponse.language ⟨[⟨"es", true, 1⟩]⟩),
       (detect_language (fun s => (s.length : Int)) ⟨⟨0, 0, 0⟩, fun _ => ⟨0, 0, 0⟩⟩
         (GoogleTranslator.init (some "k")) "hola" none
         (.response 200 ⟨none, [⟨"es", true, 1⟩]⟩)).state,
       0⟩ :=
  claim_C1_detect_cache_dedup (fun s => (s.length : Int))
    ⟨⟨0, 0, 0⟩, fun _ => ⟨0, 0, 0⟩⟩ (GoogleTranslator.init (some "k")) "hola"
    none none ⟨none, [⟨"es", true, 1⟩]⟩ .failure rfl rfl rfl (by decide)
    (by decide)

theorem stripLatnAux_nil : stripLatnAux [] = [] := by
  simp [stripLatnAux]

theorem stripLatnAux_cons (c : Char) (cs : List Char) :
    stripLatnAux (c :: cs) =
      if latn.isPrefixOf (c :: cs) then stripLatnAux (cs.drop 4)
      else c :: stripLatnAux cs := by
  simp [stripLatnAux]

/-- The pattern `"-Latn"` has no self-overlap, so appending it to a list it
was not already a prefix of cannot create a prefix match. -/
theorem latn_not_prefix_append (c : Char) (cs : List Char)
    (h : latn.isPrefixOf (c :: cs) = false) :
    latn.isPrefixOf ((c :: cs) ++ latn) = false := by
  match cs with
  | [] => simp [latn, List.isPrefixOf]
  | [c1] => simp [latn, List.isPrefixOf]
  | [c1, c2] => simp [latn, List.isPrefixOf]
  | [c1, c2, c3] => simp [latn, List.isPrefixOf]
  | c1 :: c2 :: c3 :: c4 :: rest =>
      simp only [latn, List.cons_append, List.isPrefixOf, Bool.and_true] at h ⊢
      exact h

/-- Stripping `"-Latn"` from a well-formed suffixed code (one whose base
contains no occurrence of the pattern) recovers exactly the base. -/
theorem stripLatnAux_append_latn (b : List Char) (hb : containsLatn b = false) :
    stripLatnAux (b ++ latn) = b := by
  induction b with
  | nil =>
      simp only [List.nil_append]
      simp [latn, stripLatnAux_cons, stripLatnAux_nil, List.isPrefixOf]
  | cons c cs ih =>
      have hparts : latn.isPrefixOf (c :: cs) = false ∧ containsLatn cs = false := by
        simp only [containsLatn, Bool.or_eq_false_iff] at hb
        exact hb
      rw [List.cons_append, stripLatnAux_cons,
        if_neg (by
          have := latn_not_prefix_append c cs hparts.1
          rw [List.cons_append] at this
          simp [this]),
        ih hparts.2]

/-- C9: the `"-Latn"` script-variant suffix never survives into outputs.
With a token and a translation-cache miss, any `translate_text` call that
reaches the network sends as `source` exactly the supplied code with
`"-Latn"` removed; the embed footer is computed from the stripped source and
target codes (resolved through the ISO map or upper-cased); and stripping a
code of the form `base ++ "-Latn"` whose base does not contain the pattern
yields exactly `base`. -/
theorem claim_C9_latn_never_survives (hashFn : String → Int) (cfg : BotConfig)
    (g : GoogleTranslator) (target text s : String) (guild : Option Nat)
    (resp : HttpResult TranslateBody) (r : TranslateTextResponse)
    (iso : List (String × String)) (authorM : String) (reqM : Option String)
    (from_language to_language : String) (b : List Char)
    (htok : tokenFalsy g.apiToken = false)
    (hmiss : g.translationCache.get (target, hashFn text, some s) = none)
    (hb : containsLatn b = false) :
    (∃ p, (translate_text hashFn cfg g target text (some s) guild resp).sentParams =
        some p ∧ p.source = some (stripLatn s)) ∧
    (r.embed iso authorM from_language to_language reqM).footerText =
      resolveLangName iso (stripLatn from_language) ++ "  →  " ++
        resolveLangName iso (stripLatn to_language) ∧
    stripLatn (String.mk (b ++ latn)) = String.mk b := by
  refine ⟨?_, rfl, congrArg String.mk (stripLatnAux_append_latn b hb)⟩
  rw [translate_text, if_neg (by rw [htok]; exact Bool.false_ne_true)]
  simp only [hmiss]
  cases resp with
  | failure => exact ⟨_, rfl, rfl⟩
  | response status body =>
      by_cases hs : status ≠ 200
      · simp only [if_pos hs]
        exact ⟨_, rfl, rfl⟩
      · simp only [if_neg hs]
        cases herr : body.errorMessage with
        | some m => exact ⟨_, rfl, rfl⟩
        | none => exact ⟨_, rfl, rfl⟩

/-- C9 witness: translating from "sr-Latn" with an empty ISO map — the sent
source parameter and the base of the suffixed code are both "sr". -/
theorem claim_C9_witness :
    (∃ p, (translate_text (fun _ => 0) ⟨⟨0, 0, 0⟩, fun _ => ⟨0, 0, 0⟩⟩
        (GoogleTranslator.init (some "k")) "en" "zdravo" (some "sr-Latn") none
        .failure).sentParams = some p ∧ p.source = some (stripLatn "sr-Latn")) ∧
    ((⟨[]⟩ : TranslateTextResponse).embed [] "@author" "sr-Latn" "en"
      none).footerText =
      resolveLangName [] (stripLatn "sr-Latn") ++ "  →  " ++
        resolveLangName [] (stripLatn "en") ∧
    stripLatn (String.mk (['s', 'r'] ++ latn)) = String.mk ['s', 'r'] :=
  claim_C9_latn_never_survives (fun _ => 0) ⟨⟨0, 0, 0⟩, fun _ => ⟨0, 0, 0⟩⟩
    (GoogleTranslator.init (some "k")) "en" "zdravo" "sr-Latn" none .failure
    ⟨[]⟩ [] "@author" none "sr-Latn" "en" ['s', 'r'] rfl rfl rfl

end Translate
